import Mathlib

/-!
Shallow embedding of the go-taskman core (scheduler run loop, worker pool
scaling, manager metrics), translated from the Go sources.

Conventions of the embedding:
* `time.Time` and `time.Duration` are modelled as `Int` (nanoseconds), the
  underlying representation of both Go types.
* Task payloads are opaque to the scheduler; a task is modelled as a `Nat`
  handle.  Only the worker model (further below) looks at an execution
  outcome.
* Channel effects that the claims observe (log warnings, stop signals,
  dispatched tasks) are returned explicitly by the step functions.
* `float64` / `float32` metrics arithmetic is modelled exactly over `ℚ`;
  the magnitudes involved (worker counts, task counts) are far below the
  scale at which binary rounding could flip any comparison the code makes.
-/

/-- A scheduled job, from `ScheduledJob` in the scheduler source: a list of
task handles, a cadence (duration, ns), a string ID and the absolute next
execution time (ns).  The intrusive heap `index` back-pointer is not
represented: the queue model below keeps jobs in a plain list. -/
structure ScheduledJob where
  tasks : List Nat
  cadence : Int
  id : String
  nextExec : Int
  deriving Repr, DecidableEq

/-- Modelled from the spec: the `PriorityQueue` implementation (its
`Less`/`Swap`/`Push`/`Pop` methods) is not under src/; per spec section 4.1 it is a
min-heap ordered by `NextExec` ascending.  The queue is modelled as a list
and popping returns the earliest-`NextExec` job (first among ties). -/
def popMin : List ScheduledJob → Option (ScheduledJob × List ScheduledJob)
  | [] => none
  | j :: rest =>
    match popMin rest with
    | none => some (j, [])
    | some (m, rest2) =>
      if j.nextExec ≤ m.nextExec then some (j, rest) else some (m, j :: rest2)

/-- `heap.Push` on the list model of the queue. -/
def heapPush (j : ScheduledJob) (q : List ScheduledJob) : List ScheduledJob :=
  q ++ [j]

/-- Scheduler state visible to admission: the stopped flag (whether the
scheduler context has been cancelled) and the job queue. -/
structure SchedulerState where
  stopped : Bool
  jobQueue : List ScheduledJob
  deriving Repr, DecidableEq

/-- Outcome of `Scheduler.AddJob`.  The Go function returns a job ID string
in every case, but the three return points are distinguished by their log
messages: the cadence guard logs "cadence must be greater than 0", the
stopped guard logs "Scheduler is stopped, not adding job", and the success
path logs the added job.  The embedding tags the path taken. -/
inductive AddJobResult where
  | invalidCadence
  | schedulerStopped
  | added (id : String)
  deriving Repr, DecidableEq

/-- `Scheduler.AddJob` from the scheduler source: reject cadence ≤ 0, build
the job with `NextExec = now + cadence`, reject if the scheduler context is
done, otherwise push onto the queue (the wakeup-channel signal has no
effect on the state observed by the claims).  The random job ID is passed
in as a parameter. -/
def addJob (now : Int) (jobID : String) (tasks : List Nat) (cadence : Int)
    (s : SchedulerState) : AddJobResult × SchedulerState :=
  if cadence ≤ 0 then
    (.invalidCadence, s)
  else
    let job : ScheduledJob :=
      { tasks := tasks, cadence := cadence, id := jobID, nextExec := now + cadence }
    if s.stopped then
      (.schedulerStopped, s)
    else
      (.added jobID, { s with jobQueue := heapPush job s.jobQueue })

/-- The removal loop of `Scheduler.RemoveJob`: scan the queue in order,
remove the first job whose ID matches, and break. -/
def removeJobScan (jobID : String) : List ScheduledJob → List ScheduledJob
  | [] => []
  | j :: rest => if j.id = jobID then rest else j :: removeJobScan jobID rest

/-- `Scheduler.RemoveJob` from the scheduler source.  The returned `Bool`
records whether the "Job with ID ... not found, no job was removed" warning
was logged.  In the source that warning sits after the scan loop, outside
the found branch, so it is logged unconditionally. -/
def removeJob (jobID : String) (s : SchedulerState) : SchedulerState × Bool :=
  ({ s with jobQueue := removeJobScan jobID s.jobQueue }, true)

/-- The rescheduling assignment of the run loop:
`nextJob.NextExec = nextJob.NextExec.Add(nextJob.Cadence)`. -/
def reschedule (j : ScheduledJob) : ScheduledJob :=
  { j with nextExec := j.nextExec + j.cadence }

/-- One iteration of `Scheduler.run` over the job queue, at frozen wall
clock `now`: if the queue is nonempty and the top job is due
(`NextExec - now ≤ 0`), pop it, dispatch its tasks in order, advance its
`NextExec` by its cadence and push it back.  Returns the dispatched task
handles and the new queue.  Iterations that only wait (empty queue or top
not yet due) dispatch nothing and leave the queue unchanged. -/
def runStep (now : Int) (q : List ScheduledJob) : List Nat × List ScheduledJob :=
  match popMin q with
  | none => ([], q)
  | some (top, rest) =>
    if top.nextExec - now ≤ 0 then
      (top.tasks, heapPush (reschedule top) rest)
    else
      ([], q)

/-- All task handles of all jobs currently in the queue. -/
def allQueuedTasks (q : List ScheduledJob) : List Nat :=
  q.foldr (fun j acc => j.tasks ++ acc) []

/-- The firing trace of the run loop at frozen wall clock `now`: repeatedly
pop the earliest job while it is due, recording each firing as the pair
(job ID, the `NextExec` the job was dispatched at), rescheduling the fired
job additively after each dispatch.  `fuel` bounds the number of
iterations. -/
def runTrace : Nat → Int → List ScheduledJob → List (String × Int)
  | 0, _, _ => []
  | fuel + 1, now, q =>
    match popMin q with
    | none => []
    | some (top, rest) =>
      if top.nextExec - now ≤ 0 then
        (top.id, top.nextExec) :: runTrace fuel now (heapPush (reschedule top) rest)
      else
        []

/-- The shutdown-relevant state of a `Scheduler`: whether the `sync.Once`
guarding `Stop` has fired, and the effects `Stop` performs. -/
structure StopState where
  stopDone : Bool
  cancelled : Bool
  poolStopped : Bool
  taskChanClosed : Bool
  newTaskChanClosed : Bool
  deriving Repr, DecidableEq

/-- The externally visible actions of one `Scheduler.Stop` call, in the
order the source performs them. -/
inductive StopAction where
  | cancelCtx
  | stopWorkerPool
  | awaitRunDone
  | closeTaskChan
  | closeNewTaskChan
  deriving Repr, DecidableEq

/-- `Scheduler.Stop` from the scheduler source: inside `stopOnce.Do`,
cancel the context, stop the worker pool, await the run loop, then close
the task and wakeup channels.  `sync.Once` runs the body only on the first
call, so a call finding `stopDone` set performs no action. -/
def stopScheduler (s : StopState) : StopState × List StopAction :=
  if s.stopDone then
    (s, [])
  else
    ({ stopDone := true, cancelled := true, poolStopped := true,
       taskChanClosed := true, newTaskChanClosed := true },
     [.cancelCtx, .stopWorkerPool, .awaitRunDone, .closeTaskChan, .closeNewTaskChan])

/-! ### Worker pool (from the worker pool source, `workerPool`) -/

/-- Pool-side record for one worker, from `workerInfo`: the worker ID
(modelled as `Nat`; `xid.ID` in the source), the busy flag, and whether the
worker's targeted `stopChan` has been closed (guarded by `stopOnce`). -/
structure WorkerM where
  wid : Nat
  busy : Bool
  stopSignalled : Bool
  deriving Repr, DecidableEq

/-- Worker pool state, from `workerPool`: the worker map (modelled as a
list in range order), the target worker count, the timestamp of the last
downscale, the scaling-event counter, and a counter for fresh worker IDs
(the source draws fresh `xid`s). -/
structure PoolState where
  workers : List WorkerM
  workerCountTarget : Int
  lastDownScale : Int
  scalingEvents : Int
  nextId : Nat
  deriving Repr, DecidableEq

/-- `utilizationThreshold = 0.4` (the `float64` literal, exactly 2/5 for
the comparison the code performs). -/
def utilizationThreshold : ℚ := 2 / 5

/-- `downScaleMinInterval = time.Second * 30`, in nanoseconds. -/
def downScaleMinInterval : Int := 30 * 1000000000

/-- `workerPool.runningWorkers()`: number of workers currently running. -/
def runningWorkersM (p : PoolState) : Int :=
  p.workers.length

/-- `workerPool.activeWorkers()`: number of workers currently busy. -/
def activeWorkersM (p : PoolState) : Int :=
  (p.workers.filter (fun w => w.busy)).length

/-- `workerPool.utilization()`: 0 when no worker is running, otherwise
active / running (exact arithmetic in place of `float64`). -/
def utilization (p : PoolState) : ℚ :=
  if p.workers.length = 0 then 0
  else (activeWorkersM p : ℚ) / (runningWorkersM p : ℚ)

/-- `workerPool.busyAndIdleWorkers()`: the IDs of busy workers and of idle
workers, in map-range order. -/
def busyAndIdleWorkers (p : PoolState) : List Nat × List Nat :=
  ((p.workers.filter (fun w => w.busy)).map (fun w => w.wid),
   (p.workers.filter (fun w => !w.busy)).map (fun w => w.wid))

/-- Close the targeted stop channel of every worker whose ID is listed
(`workerPool.stopWorker`, idempotent through `stopOnce`). -/
def signalWorkers (ids : List Nat) (p : PoolState) : PoolState :=
  { p with
    workers := p.workers.map (fun w =>
      if w.wid ∈ ids then { w with stopSignalled := true } else w) }

/-- `workerPool.stopWorkers(workersToStop)`: reject a non-positive count or
a count above the running workers (returning an error, no signal sent);
otherwise signal the first `workersToStop` idle workers if there are
enough, else all idle workers and then busy workers up to the remainder.
Returns the new pool and the list of signalled worker IDs, or `none` for
the validation-error return. -/
def stopWorkersM (workersToStop : Int) (p : PoolState) :
    Option (PoolState × List Nat) :=
  if workersToStop ≤ 0 then none
  else if runningWorkersM p < workersToStop then none
  else
    let bi := busyAndIdleWorkers p
    let idle := bi.2
    let busy := bi.1
    let n := workersToStop.toNat
    let targets :=
      if n ≤ idle.length then idle.take n
      else idle ++ busy.take (min (n - idle.length) busy.length)
    some (signalWorkers targets p, targets)

/-- `workerPool.addWorkers(nWorkers)`: start `nWorkers` fresh workers (the
source spawns goroutines which register themselves; the model registers
them directly, idle and unsignalled). -/
def addWorkersM (nWorkers : Nat) (p : PoolState) : PoolState :=
  { p with
    workers := p.workers ++ (List.range nWorkers).map
      (fun k => { wid := p.nextId + k, busy := false, stopSignalled := false }),
    nextId := p.nextId + nWorkers }

/-- `workerPool.adjustWorkerCount(newTargetCount)` at wall clock `now`:
count the scaling event, read the current target, store the new target,
then: scale up by the delta when the target rose; when it fell, stop
`current - new` workers only if utilization is below the threshold and at
least `downScaleMinInterval` has passed since the last downscale
(recording the downscale time on success), otherwise skip; equal targets
do nothing.  Returns the new pool and the worker IDs that received a stop
signal. -/
def adjustWorkerCount (now : Int) (newTargetCount : Int) (p : PoolState) :
    PoolState × List Nat :=
  let p1 := { p with scalingEvents := p.scalingEvents + 1 }
  let currentTarget := p1.workerCountTarget
  let p2 := { p1 with workerCountTarget := newTargetCount }
  if currentTarget < newTargetCount then
    (addWorkersM (newTargetCount - currentTarget).toNat p2, [])
  else if newTargetCount < currentTarget then
    if utilization p2 < utilizationThreshold ∧
        now - p2.lastDownScale ≥ downScaleMinInterval then
      match stopWorkersM (currentTarget - newTargetCount) p2 with
      | some pr => ({ pr.1 with lastDownScale := now }, pr.2)
      | none => (p2, [])
    else
      (p2, [])
  else
    (p2, [])

/-! ### One worker's task handling (from `workerPool.startWorker`) -/

/-- Outcome of one `task.Execute()` call as seen by the worker frame. -/
inductive ExecOutcome where
  | ok
  | errResult (msg : String)
  | panicked (msg : String)
  deriving Repr, DecidableEq

/-- An error value offered on the pool's error channel: either the error a
task returned, or the error built from a recovered panic, which carries
the worker ID. -/
inductive SentError where
  | taskErr (msg : String)
  | panicErr (wid : Nat) (msg : String)
  deriving Repr, DecidableEq

/-- The message of the error built from a recovered panic,
`fmt.Errorf("worker %s: panic: %v", id, r)`. -/
def panicErrMsg (wid : Nat) (msg : String) : String :=
  "worker " ++ toString wid ++ ": panic: " ++ msg

/-- State around one worker's loop body: its busy flag, the pool's active
counter, whether the error / execution-time channels can accept a value
(the non-blocking offers), and the values delivered on them so far. -/
structure WorkerState where
  busy : Bool
  workersActive : Int
  errorChanFree : Bool
  execChanFree : Bool
  errorsSent : List SentError
  execTimesSent : Nat
  deriving Repr, DecidableEq

/-- The non-blocking `select { case errorChan <- err: default: }`: deliver
the error when the channel can accept it, otherwise drop it. -/
def offerError (e : SentError) (s : WorkerState) : WorkerState :=
  if s.errorChanFree then { s with errorsSent := s.errorsSent ++ [e] } else s

/-- The non-blocking offer of the elapsed execution time. -/
def offerExecTime (s : WorkerState) : WorkerState :=
  if s.execChanFree then { s with execTimesSent := s.execTimesSent + 1 } else s

/-- The task-handling closure of `workerPool.startWorker`: mark busy and
raise the active counter; run `task.Execute()`; on a normal return offer
the returned error (if any) and the elapsed time; on a panic the deferred
`recover` catches it and offers the panic error carrying the worker ID
(the elapsed-time offer after `Execute` is skipped); the deferred epilogue
then clears the busy flag and lowers the active counter in every case. -/
def workerHandleTask (wid : Nat) (outcome : ExecOutcome) (s : WorkerState) :
    WorkerState :=
  let s1 := { s with busy := true, workersActive := s.workersActive + 1 }
  let s2 :=
    match outcome with
    | .ok => offerExecTime s1
    | .errResult m => offerExecTime (offerError (.taskErr m) s1)
    | .panicked m => offerError (.panicErr wid (panicErrMsg wid m)) s1
  { s2 with busy := false, workersActive := s2.workersActive - 1 }

/-- One arm of the worker's `select`: a task arriving (with its execution
outcome), the task channel closing, the worker's targeted stop signal, or
the pool-wide stop signal. -/
inductive WorkerEvent where
  | taskArrived (outcome : ExecOutcome)
  | taskChanClosed
  | targetedStop
  | poolStop
  deriving Repr, DecidableEq

/-- One iteration of the worker loop.  The returned `Bool` is true when
the worker goes back to its `select` (the loop continues) and false when
the worker returns (channel closed or a stop signal). -/
def workerStep (wid : Nat) (ev : WorkerEvent) (s : WorkerState) :
    WorkerState × Bool :=
  match ev with
  | .taskArrived outcome => (workerHandleTask wid outcome s, true)
  | .taskChanClosed => (s, false)
  | .targetedStop => (s, false)
  | .poolStop => (s, false)

/-! ### Manager metrics (from `manager_metrics.go`) -/

/-- `managerMetrics`: the running average execution time (a
`time.Duration`, ns), the total execution count, the tasks-per-second
estimate (`float32`, modelled exactly over `ℚ`), the task queue count and
the widest-job high-water mark. -/
structure ManagerMetrics where
  averageExecTime : Int
  totalTaskExecutions : Int
  tasksPerSecond : ℚ
  tasksInQueue : Int
  maxJobWidth : Int
  deriving Repr, DecidableEq

/-- `time.Duration.Seconds()`: the duration in nanoseconds divided by 1e9
(exact arithmetic in place of `float64`). -/
def durationSeconds (d : Int) : ℚ :=
  (d : ℚ) / 1000000000

/-- `calcTasksPerSecond(nTasks, cadence)`: 0 when the cadence is 0,
otherwise |nTasks| divided by the cadence in seconds. -/
def calcTasksPerSecond (nTasks : Int) (cadence : Int) : ℚ :=
  if cadence = 0 then 0
  else |(nTasks : ℚ)| / durationSeconds cadence

/-- `managerMetrics.updateTaskMetrics(taskDelta, taskCadence)`: compute the
new queue count; when it is ≤ 0 clamp throughput and queue count to 0;
otherwise raise the widest-job mark if exceeded, and mix
`calcTasksPerSecond taskDelta taskCadence` into the stored tasks-per-second
by the weighted average `(perJob * taskDelta + tps * prev) / newCount` —
note the source multiplies by the signed `taskDelta`, not its absolute
value — then store the new throughput and queue count. -/
def updateTaskMetrics (taskDelta : Int) (taskCadence : Int)
    (mm : ManagerMetrics) : ManagerMetrics :=
  let currentTaskCount := mm.tasksInQueue
  let newTaskCount := currentTaskCount + taskDelta
  if newTaskCount ≤ 0 then
    { mm with tasksPerSecond := 0, tasksInQueue := 0 }
  else
    let mm1 :=
      if mm.maxJobWidth < taskDelta then { mm with maxJobWidth := taskDelta } else mm
    let perJob := calcTasksPerSecond taskDelta taskCadence
    let newTasksPerSecond :=
      (perJob * (taskDelta : ℚ) + mm1.tasksPerSecond * (currentTaskCount : ℚ)) /
        (newTaskCount : ℚ)
    { mm1 with tasksPerSecond := newTasksPerSecond, tasksInQueue := newTaskCount }

/-- One iteration of `managerMetrics.consumeExecTime` on receipt of a
sample: the new average is `(avg * n + sample) / (n + 1)` in `time.Duration`
(int64) arithmetic — Go's `/` truncates toward zero, hence `Int.tdiv` —
and the execution count is incremented. -/
def consumeExecTimeStep (execTime : Int) (mm : ManagerMetrics) : ManagerMetrics :=
  { mm with
    averageExecTime :=
      Int.tdiv (mm.averageExecTime * mm.totalTaskExecutions + execTime)
        (mm.totalTaskExecutions + 1),
    totalTaskExecutions := mm.totalTaskExecutions + 1 }

/-! ### Helper lemmas -/

/-- The job returned by `popMin` is an element of the queue. -/
theorem popMin_mem : ∀ {q : List ScheduledJob} {top : ScheduledJob}
    {rest : List ScheduledJob}, popMin q = some (top, rest) → top ∈ q := by
  intro q
  induction q with
  | nil => intro top rest h; simp [popMin] at h
  | cons j tl ih =>
    intro top rest h
    simp only [popMin] at h
    cases htl : popMin tl with
    | none =>
      rw [htl] at h
      simp only [Option.some.injEq, Prod.mk.injEq] at h
      exact h.1 ▸ List.mem_cons_self j tl
    | some pr =>
      obtain ⟨m, rest2⟩ := pr
      rw [htl] at h
      dsimp only at h
      by_cases hle : j.nextExec ≤ m.nextExec
      · rw [if_pos hle] at h
        simp only [Option.some.injEq, Prod.mk.injEq] at h
        exact h.1 ▸ List.mem_cons_self j tl
      · rw [if_neg hle] at h
        simp only [Option.some.injEq, Prod.mk.injEq] at h
        exact h.1 ▸ List.mem_cons_of_mem j (ih htl)

/-- A task of a queued job is among the tasks of the queue. -/
theorem mem_allQueuedTasks {q : List ScheduledJob} {j : ScheduledJob} {t : Nat}
    (hj : j ∈ q) (ht : t ∈ j.tasks) : t ∈ allQueuedTasks q := by
  induction q with
  | nil => cases hj
  | cons hd tl ih =>
    have hstep : allQueuedTasks (hd :: tl) = hd.tasks ++ allQueuedTasks tl := rfl
    rw [hstep, List.mem_append]
    rcases List.mem_cons.mp hj with h | h
    · exact Or.inl (h ▸ ht)
    · exact Or.inr (ih h)

/-- Every task handle dispatched by a run-loop iteration belongs to a job
that was in the queue. -/
theorem runStep_dispatch_mem {now : Int} {q : List ScheduledJob} {t : Nat}
    (h : t ∈ (runStep now q).1) : t ∈ allQueuedTasks q := by
  unfold runStep at h
  cases hpop : popMin q with
  | none => rw [hpop] at h; cases h
  | some pr =>
    obtain ⟨top, rest⟩ := pr
    rw [hpop] at h
    dsimp only at h
    by_cases hdue : top.nextExec - now ≤ 0
    · rw [if_pos hdue] at h
      exact mem_allQueuedTasks (popMin_mem hpop) h
    · rw [if_neg hdue] at h
      cases h

/-- Firing times of a single always-due job: the firing at (0-based)
position `k` of the trace is scheduled at the admitted `NextExec` plus
`k` cadences. -/
theorem runTrace_singleton_firing :
    ∀ (k fuel : Nat) (j : ScheduledJob) (now : Int), k < fuel → 0 ≤ j.cadence →
      j.nextExec + (k : Int) * j.cadence ≤ now →
      (runTrace fuel now [j])[k]? = some (j.id, j.nextExec + (k : Int) * j.cadence) := by
  intro k
  induction k with
  | zero =>
    intro fuel j now hk hc hle
    obtain ⟨f, rfl⟩ : ∃ f, fuel = f + 1 := ⟨fuel - 1, by omega⟩
    simp only [Nat.cast_zero, zero_mul, add_zero] at hle ⊢
    have hdue : j.nextExec - now ≤ 0 := by omega
    simp [runTrace, popMin, hdue]
  | succ k ih =>
    intro fuel j now hk hc hle
    obtain ⟨f, rfl⟩ : ∃ f, fuel = f + 1 := ⟨fuel - 1, by omega⟩
    have hkf : k < f := by omega
    have hnn : 0 ≤ ((k : Int) + 1) * j.cadence := by positivity
    have hcast : ((k + 1 : Nat) : Int) = (k : Int) + 1 := by push_cast; ring
    rw [hcast] at hle
    have hdue : j.nextExec - now ≤ 0 := by omega
    have htail := ih f (reschedule j) now hkf (by simpa [reschedule] using hc)
      (by simp only [reschedule]; linarith [hle, mul_one j.cadence])
    simp only [runTrace, popMin, hdue, if_pos, heapPush, List.nil_append]
    rw [List.getElem?_cons_succ]
    rw [htail]
    simp only [reschedule, Option.some.injEq, Prod.mk.injEq, true_and]
    push_cast
    ring

/-! ### Claim theorems: scheduler -/

/-- Concrete job used for the C1 counterexample and witness: admitted with
`NextExec = 100` and `Cadence = 10`. -/
def jbC1 : ScheduledJob := { tasks := [0], cadence := 10, id := "a", nextExec := 100 }

/-- C1, counterexample to the claim as stated: for a job admitted with
`NextExec = 100` and `Cadence = 10`, always due, the 1st firing (k = 1) is
scheduled at the admitted `NextExec` itself, 100 — not at
`admitted NextExec + 1 * Cadence = 110` as the claim's formula demands. -/
theorem C1_counterexample :
    (runTrace 5 200 [jbC1])[0]? = some ("a", (100 : Int)) ∧
    (100 : Int) ≠ 100 + 1 * 10 := by
  constructor
  · decide
  · decide

/-- C1 (amended): each dispatch of a due job advances its `NextExec` by
exactly its `Cadence` (additive rescheduling, not `now + Cadence`), and
hence for a job executed k times the kth firing's scheduled time equals
the admitted `NextExec` plus (k - 1) cadences — equivalently, the firing
at 0-based trace position k is scheduled at `admitted NextExec + k * Cadence`. -/
theorem C1_additive_rescheduling :
    (∀ (now : Int) (q : List ScheduledJob) (top : ScheduledJob) (rest : List ScheduledJob),
      popMin q = some (top, rest) → top.nextExec - now ≤ 0 →
      runStep now q = (top.tasks, heapPush (reschedule top) rest)) ∧
    (∀ j : ScheduledJob, (reschedule j).nextExec = j.nextExec + j.cadence) ∧
    (∀ (k fuel : Nat) (j : ScheduledJob) (now : Int), k < fuel → 0 ≤ j.cadence →
      j.nextExec + (k : Int) * j.cadence ≤ now →
      (runTrace fuel now [j])[k]? = some (j.id, j.nextExec + (k : Int) * j.cadence)) := by
  refine ⟨?_, fun j => rfl, runTrace_singleton_firing⟩
  intro now q top rest hpop hdue
  unfold runStep
  rw [hpop]
  dsimp only
  rw [if_pos hdue]

/-- C1 witness: one due dispatch of `jbC1` reschedules it to 110, and the
firing at trace position 2 is scheduled at 100 + 2 * 10 = 120. -/
theorem C1_additive_rescheduling_witness :
    runStep 120 [jbC1] = (jbC1.tasks, heapPush (reschedule jbC1) []) ∧
    (runTrace 3 150 [jbC1])[(2 : Nat)]? =
      some (jbC1.id, jbC1.nextExec + ((2 : Nat) : Int) * jbC1.cadence) :=
  ⟨C1_additive_rescheduling.1 120 [jbC1] jbC1 [] (by decide) (by decide),
   C1_additive_rescheduling.2.2 2 3 jbC1 150 (by decide) (by decide) (by decide)⟩

/-- Concrete job used for the C2 evaluation. -/
def jobC2 : ScheduledJob := { tasks := [0], cadence := 100, id := "someJob", nextExec := 100 }

/-- C2, evaluating the code at the failing input: removing the present job
"someJob" does remove it from the queue, yet the "not found" warning is
logged anyway (the warning sits outside the found branch); removing an
absent ID leaves the queue unchanged and also logs the warning.  The
claim's intended behavior — the warning fires only when no job matched —
is violated by the first conjunct. -/
theorem C2_remove_warns_after_removal :
    removeJob "someJob" ⟨false, [jobC2]⟩ = (⟨false, []⟩, true) ∧
    removeJob "missing" ⟨false, [jobC2]⟩ = (⟨false, [jobC2]⟩, true) := by
  constructor
  · decide
  · decide

/-- C3, counterexample to the claim as stated: on a stopped scheduler, an
admission with cadence 0 returns the invalid-cadence outcome (the cadence
guard runs first), not the stopped outcome the claim demands for every
post-stop admission. -/
theorem C3_counterexample :
    (addJob 0 "x" [0] 0 ⟨true, []⟩).1 = AddJobResult.invalidCadence ∧
    AddJobResult.invalidCadence ≠ AddJobResult.schedulerStopped := by
  constructor
  · rfl
  · decide

/-- C3 (amended): admissions on a stopped scheduler never modify the job
queue, return the stopped outcome whenever the cadence is valid (> 0;
cadence ≤ 0 admissions return the invalid-cadence outcome instead), and
any task a run-loop iteration dispatches afterwards was already in the
queue — the tasks submitted after stop are never dispatched. -/
theorem C3_stopped_admission_noop :
    ∀ (s : SchedulerState) (now : Int) (jobID : String) (tasks : List Nat) (cadence : Int),
      s.stopped = true →
      (0 < cadence → addJob now jobID tasks cadence s = (.schedulerStopped, s)) ∧
      (addJob now jobID tasks cadence s).2 = s ∧
      (∀ (now2 : Int) (t : Nat),
        t ∈ (runStep now2 (addJob now jobID tasks cadence s).2.jobQueue).1 →
        t ∈ allQueuedTasks s.jobQueue) := by
  intro s now jobID tasks cadence hstop
  have h2 : (addJob now jobID tasks cadence s).2 = s := by
    unfold addJob
    split
    · rfl
    · simp [hstop]
  refine ⟨?_, h2, ?_⟩
  · intro hc
    unfold addJob
    rw [if_neg (by omega : ¬ cadence ≤ 0)]
    simp [hstop]
  · intro now2 t ht
    rw [h2] at ht
    exact runStep_dispatch_mem ht

/-- C3 witness: a valid-cadence admission on a stopped scheduler with an
empty queue returns the stopped outcome and leaves the state untouched. -/
theorem C3_stopped_admission_noop_witness :
    addJob 0 "w" [7] 5 ⟨true, []⟩ = (.schedulerStopped, ⟨true, []⟩) ∧
    (addJob 0 "w" [7] 5 ⟨true, []⟩).2 = (⟨true, []⟩ : SchedulerState) :=
  ⟨(C3_stopped_admission_noop ⟨true, []⟩ 0 "w" [7] 5 rfl).1 (by decide),
   (C3_stopped_admission_noop ⟨true, []⟩ 0 "w" [7] 5 rfl).2.1⟩

/-- C6: admission with cadence ≤ 0 is rejected with the invalid-cadence
outcome, the queue is unchanged by the call, and any task a run-loop
iteration dispatches afterwards was already in the queue — the submitted
task is never executed. -/
theorem C6_invalid_cadence_rejected :
    ∀ (s : SchedulerState) (now : Int) (jobID : String) (tasks : List Nat) (cadence : Int),
      cadence ≤ 0 →
      addJob now jobID tasks cadence s = (.invalidCadence, s) ∧
      (∀ (now2 : Int) (t : Nat),
        t ∈ (runStep now2 (addJob now jobID tasks cadence s).2.jobQueue).1 →
        t ∈ allQueuedTasks s.jobQueue) := by
  intro s now jobID tasks cadence hc
  have h1 : addJob now jobID tasks cadence s = (.invalidCadence, s) := by
    unfold addJob
    rw [if_pos hc]
  refine ⟨h1, ?_⟩
  intro now2 t ht
  rw [h1] at ht
  exact runStep_dispatch_mem ht

/-- C6 witness: a cadence-0 admission on a running scheduler with one
queued job is rejected and the queue is untouched. -/
theorem C6_invalid_cadence_rejected_witness :
    addJob 0 "z" [3] 0 ⟨false, [jbC1]⟩ = (.invalidCadence, ⟨false, [jbC1]⟩) :=
  (C6_invalid_cadence_rejected ⟨false, [jbC1]⟩ 0 "z" [3] 0 (by decide)).1

/-- C9: `Stop` is idempotent — after a first `Stop` call, a second call
returns the state unchanged and performs no action (nothing is cancelled,
closed or awaited a second time). -/
theorem C9_stop_idempotent :
    ∀ s : StopState, stopScheduler (stopScheduler s).1 = ((stopScheduler s).1, []) := by
  intro s
  by_cases h : s.stopDone = true
  · simp [stopScheduler, h]
  · simp [stopScheduler, h]

/-! ### Claim theorems: worker pool -/

/-- `stopWorkersM` touches only the worker list: target count and the
downscale timestamp pass through. -/
theorem stopWorkersM_fields {n : Int} {p : PoolState} {pr : PoolState × List Nat}
    (h : stopWorkersM n p = some pr) :
    pr.1.workerCountTarget = p.workerCountTarget ∧
    pr.1.lastDownScale = p.lastDownScale := by
  unfold stopWorkersM at h
  by_cases h1 : n ≤ 0
  · rw [if_pos h1] at h; cases h
  · rw [if_neg h1] at h
    by_cases h2 : runningWorkersM p < n
    · rw [if_pos h2] at h; cases h
    · rw [if_neg h2] at h
      dsimp only at h
      injection h with h
      rw [← h]
      exact ⟨rfl, rfl⟩

/-- C4: a scaling request lowering the target stops workers only when the
pool utilization is below the 0.40 threshold and at least 30 s have
elapsed since the last downscale; when either condition fails the
downscale is refused — the pool state changes only in its event counter
and stored target, and no worker is signalled — while a request raising
the target adds the delta unconditionally. -/
theorem C4_downscale_policy :
    ∀ (p : PoolState) (t now : Int),
      (t < p.workerCountTarget →
        ¬(utilization p < utilizationThreshold ∧
            now - p.lastDownScale ≥ downScaleMinInterval) →
        adjustWorkerCount now t p =
          ({ p with scalingEvents := p.scalingEvents + 1, workerCountTarget := t }, [])) ∧
      ((adjustWorkerCount now t p).2 ≠ [] →
        t < p.workerCountTarget ∧ utilization p < utilizationThreshold ∧
          now - p.lastDownScale ≥ downScaleMinInterval) ∧
      (p.workerCountTarget < t →
        adjustWorkerCount now t p =
          (addWorkersM (t - p.workerCountTarget).toNat
            { p with scalingEvents := p.scalingEvents + 1, workerCountTarget := t }, [])) := by
  intro p t now
  have hrefused : t < p.workerCountTarget →
      ¬(utilization p < utilizationThreshold ∧
          now - p.lastDownScale ≥ downScaleMinInterval) →
      adjustWorkerCount now t p =
        ({ p with scalingEvents := p.scalingEvents + 1, workerCountTarget := t }, []) := by
    intro hlt hcond
    unfold adjustWorkerCount
    dsimp only
    rw [if_neg (by omega : ¬ p.workerCountTarget < t), if_pos hlt]
    split
    · rename_i h3
      exact absurd h3 hcond
    · rfl
  have hsame : ¬ p.workerCountTarget < t → ¬ t < p.workerCountTarget →
      adjustWorkerCount now t p =
        ({ p with scalingEvents := p.scalingEvents + 1, workerCountTarget := t }, []) := by
    intro h1 h2
    unfold adjustWorkerCount
    dsimp only
    rw [if_neg h1, if_neg h2]
  have hup : p.workerCountTarget < t →
      adjustWorkerCount now t p =
        (addWorkersM (t - p.workerCountTarget).toNat
          { p with scalingEvents := p.scalingEvents + 1, workerCountTarget := t }, []) := by
    intro hgt
    unfold adjustWorkerCount
    dsimp only
    rw [if_pos hgt]
  refine ⟨hrefused, ?_, hup⟩
  intro hne
  by_cases h1 : p.workerCountTarget < t
  · rw [hup h1] at hne
    exact absurd rfl hne
  · by_cases h2 : t < p.workerCountTarget
    · by_cases h3 : utilization p < utilizationThreshold ∧
          now - p.lastDownScale ≥ downScaleMinInterval
      · exact ⟨h2, h3⟩
      · rw [hrefused h2 h3] at hne
        exact absurd rfl hne
    · rw [hsame h1 h2] at hne
      exact absurd rfl hne

/-- Concrete pool for the C4 and C10 witnesses: two running workers, one
busy, so utilization is 1/2 ≥ 0.40; target 2, last downscale at time 0. -/
def poolW : PoolState :=
  { workers := [{ wid := 0, busy := true, stopSignalled := false },
                { wid := 1, busy := false, stopSignalled := false }],
    workerCountTarget := 2, lastDownScale := 0, scalingEvents := 0, nextId := 2 }

/-- C4 witness: lowering the target from 2 to 1 at utilization 1/2 is
refused (no worker signalled, only the event counter and stored target
change), and raising it from 2 to 4 adds two workers unconditionally. -/
theorem C4_downscale_policy_witness :
    adjustWorkerCount (50 * 1000000000) 1 poolW =
      ({ poolW with scalingEvents := poolW.scalingEvents + 1, workerCountTarget := 1 }, []) ∧
    adjustWorkerCount 0 4 poolW =
      (addWorkersM ((4 : Int) - poolW.workerCountTarget).toNat
        { poolW with scalingEvents := poolW.scalingEvents + 1, workerCountTarget := 4 }, []) :=
  ⟨(C4_downscale_policy poolW 1 (50 * 1000000000)).1 (by decide)
      (by norm_num [utilization, activeWorkersM, runningWorkersM, poolW, utilizationThreshold]),
   (C4_downscale_policy poolW 4 0).2.2 (by decide)⟩

/-- C10: `adjustWorkerCount(t)` stores `t` as the target worker count
unconditionally — the target is updated before the scaling policy runs —
so a refused downscale still leaves the stored target at `t` while the
worker list (hence the running worker count) is unchanged. -/
theorem C10_target_stored_unconditionally :
    ∀ (p : PoolState) (t now : Int),
      (adjustWorkerCount now t p).1.workerCountTarget = t ∧
      (t < p.workerCountTarget →
        ¬(utilization p < utilizationThreshold ∧
            now - p.lastDownScale ≥ downScaleMinInterval) →
        (adjustWorkerCount now t p).1.workers = p.workers) := by
  intro p t now
  constructor
  · unfold adjustWorkerCount
    dsimp only
    split
    · rfl
    · split
      · split
        · cases hsw : stopWorkersM (p.workerCountTarget - t)
              { p with scalingEvents := p.scalingEvents + 1, workerCountTarget := t } with
          | none => rfl
          | some pr =>
            dsimp only
            exact (stopWorkersM_fields hsw).1
        · rfl
      · rfl
  · intro hlt hcond
    rw [(C4_downscale_policy p t now).1 hlt hcond]

/-- C10 witness: the refused downscale of `poolW` from target 2 to 1
leaves the stored target at 1 and the worker list unchanged. -/
theorem C10_target_stored_witness :
    (adjustWorkerCount (50 * 1000000000) 1 poolW).1.workerCountTarget = 1 ∧
    (adjustWorkerCount (50 * 1000000000) 1 poolW).1.workers = poolW.workers :=
  ⟨(C10_target_stored_unconditionally poolW 1 (50 * 1000000000)).1,
   (C10_target_stored_unconditionally poolW 1 (50 * 1000000000)).2 (by decide)
      (by norm_num [utilization, activeWorkersM, runningWorkersM, poolW, utilizationThreshold])⟩

/-! ### Claim theorems: metrics and worker execution -/

/-- Concrete metrics state for the C5 counterexample: throughput 0, two
tasks in the queue. -/
def mmC5 : ManagerMetrics :=
  { averageExecTime := 0, totalTaskExecutions := 0, tasksPerSecond := 0,
    tasksInQueue := 2, maxJobWidth := 2 }

/-- C5, counterexample to the claim as stated: removing one task
(delta = -1, cadence 1 s) from a queue of two at throughput 0 stores
tasks-per-second -1, while the claim's formula
`(perJob * |delta| + tps * prev) / newTotal` gives +1 — the source
multiplies by the signed delta, not by its absolute value. -/
theorem C5_counterexample :
    (updateTaskMetrics (-1) 1000000000 mmC5).tasksPerSecond = -1 ∧
    (calcTasksPerSecond (-1) 1000000000 * |((-1 : Int) : ℚ)| +
        mmC5.tasksPerSecond * (mmC5.tasksInQueue : ℚ)) /
      ((mmC5.tasksInQueue + (-1) : Int) : ℚ) = 1 ∧
    (-1 : ℚ) ≠ 1 := by
  refine ⟨?_, ?_, by norm_num⟩
  · norm_num [updateTaskMetrics, calcTasksPerSecond, durationSeconds, mmC5]
  · norm_num [calcTasksPerSecond, durationSeconds, mmC5]

/-- C5 (amended): when the new total `prev + delta` is positive, the
stored tasks-per-second becomes
`(perJob * delta + tps * prev) / newTotal` with the signed delta — where
`perJob = |delta| / cadence.seconds()` and `perJob = 0` when the cadence
is 0 — and the stored queue count becomes the new total. -/
theorem C5_update_tps_signed :
    ∀ (mm : ManagerMetrics) (delta c : Int), 0 < mm.tasksInQueue + delta →
      (updateTaskMetrics delta c mm).tasksPerSecond =
        (calcTasksPerSecond delta c * (delta : ℚ) +
          mm.tasksPerSecond * (mm.tasksInQueue : ℚ)) /
          ((mm.tasksInQueue + delta : Int) : ℚ) ∧
      (updateTaskMetrics delta c mm).tasksInQueue = mm.tasksInQueue + delta ∧
      (c = 0 → calcTasksPerSecond delta c = 0) ∧
      (c ≠ 0 → calcTasksPerSecond delta c = |(delta : ℚ)| / durationSeconds c) := by
  intro mm delta c h
  unfold updateTaskMetrics
  rw [if_neg (by omega : ¬ mm.tasksInQueue + delta ≤ 0)]
  dsimp only
  refine ⟨?_, rfl, ?_, ?_⟩
  · split <;> rfl
  · intro h0
    simp [calcTasksPerSecond, h0]
  · intro h0
    simp [calcTasksPerSecond, h0]

/-- Concrete metrics state for the C5 witness. -/
def mmW5 : ManagerMetrics :=
  { averageExecTime := 0, totalTaskExecutions := 0, tasksPerSecond := 2,
    tasksInQueue := 3, maxJobWidth := 1 }

/-- C5 witness: admitting one task with cadence 2 s into a queue of three
at throughput 2 yields (1/2 * 1 + 2 * 3) / 4 = 13/8 tasks per second. -/
theorem C5_update_tps_signed_witness :
    (updateTaskMetrics 1 2000000000 mmW5).tasksPerSecond = 13 / 8 :=
  ((C5_update_tps_signed mmW5 1 2000000000 (by decide)).1).trans
    (by norm_num [calcTasksPerSecond, durationSeconds, mmW5])

/-- C7: consuming an execution-time sample stores the average
`(avg * n + sample) / (n + 1)` — computed in `time.Duration` (int64)
arithmetic, whose `/` truncates toward zero — and increments the total to
`n + 1`; for the non-negative values the channel carries, the truncated
quotient agrees with the rounded-down integer quotient. -/
theorem C7_consume_exec_time :
    ∀ (mm : ManagerMetrics) (sample : Int),
      ((consumeExecTimeStep sample mm).averageExecTime =
          Int.tdiv (mm.averageExecTime * mm.totalTaskExecutions + sample)
            (mm.totalTaskExecutions + 1) ∧
        (consumeExecTimeStep sample mm).totalTaskExecutions =
          mm.totalTaskExecutions + 1) ∧
      (0 ≤ mm.averageExecTime → 0 ≤ mm.totalTaskExecutions → 0 ≤ sample →
        (consumeExecTimeStep sample mm).averageExecTime =
          (mm.averageExecTime * mm.totalTaskExecutions + sample) /
            (mm.totalTaskExecutions + 1)) := by
  intro mm sample
  refine ⟨⟨rfl, rfl⟩, ?_⟩
  intro h1 h2 h3
  exact Int.tdiv_eq_ediv (by positivity) (by omega)

/-- Concrete metrics state for the C7 witness: average 4 over 3
executions. -/
def mmW7 : ManagerMetrics :=
  { averageExecTime := 4, totalTaskExecutions := 3, tasksPerSecond := 0,
    tasksInQueue := 0, maxJobWidth := 0 }

/-- C7 witness: a sample of 10 over `mmW7` stores the average
(4 * 3 + 10) / 4 = 5 and total 4. -/
theorem C7_consume_exec_time_witness :
    (consumeExecTimeStep 10 mmW7).averageExecTime = 5 ∧
    (consumeExecTimeStep 10 mmW7).totalTaskExecutions = 4 :=
  ⟨((C7_consume_exec_time mmW7 10).2 (by decide) (by decide) (by decide)).trans (by decide),
   ((C7_consume_exec_time mmW7 10).1).2⟩

/-- C8: a panic inside `task.Execute` is contained by the worker frame:
the worker loops again (does not terminate), ends with its busy flag
clear and the active count back at its pre-task value, and the panic
error carrying the worker id is appended to the error channel exactly
when the channel can accept it (dropped when it is full). -/
theorem C8_panic_contained :
    ∀ (wid : Nat) (m : String) (s : WorkerState),
      (workerStep wid (.taskArrived (.panicked m)) s).2 = true ∧
      (workerStep wid (.taskArrived (.panicked m)) s).1.busy = false ∧
      (workerStep wid (.taskArrived (.panicked m)) s).1.workersActive =
        s.workersActive ∧
      (s.errorChanFree = true →
        (workerStep wid (.taskArrived (.panicked m)) s).1.errorsSent =
          s.errorsSent ++ [.panicErr wid (panicErrMsg wid m)]) ∧
      (s.errorChanFree = false →
        (workerStep wid (.taskArrived (.panicked m)) s).1.errorsSent =
          s.errorsSent) := by
  intro wid m s
  by_cases h : s.errorChanFree = true
  · simp [workerStep, workerHandleTask, offerError, h]
  · simp [workerStep, workerHandleTask, offerError, h]

/-- Concrete worker-side state for the C8 witness: idle worker, active
count 5, error channel able to accept. -/
def sW8 : WorkerState :=
  { busy := false, workersActive := 5, errorChanFree := true,
    execChanFree := true, errorsSent := [], execTimesSent := 0 }

/-- C8 witness: worker 3 handling a panicking task over `sW8` continues
its loop, ends idle with active count 5, and delivers the panic error
naming worker 3. -/
theorem C8_panic_contained_witness :
    (workerStep 3 (.taskArrived (.panicked "boom")) sW8).2 = true ∧
    (workerStep 3 (.taskArrived (.panicked "boom")) sW8).1.workersActive =
      sW8.workersActive ∧
    (workerStep 3 (.taskArrived (.panicked "boom")) sW8).1.errorsSent =
      sW8.errorsSent ++ [.panicErr 3 (panicErrMsg 3 "boom")] :=
  ⟨(C8_panic_contained 3 "boom" sW8).1,
   (C8_panic_contained 3 "boom" sW8).2.2.1,
   (C8_panic_contained 3 "boom" sW8).2.2.2.1 rfl⟩
